import Mathlib

/-!
Verification of the screentime aggregator core against its source.

The Go sources are shallowly embedded: the SQLite-backed session store
becomes a pure `Store` value (the `sessions` ledger and the
`current_sessions` table as lists of rows), every store method becomes a
pure function on `Store`, and each transactional method returns
`Except String Store` (a committed store or a rolled-back error).
`time.Time` values are embedded as `Int` nanoseconds since the epoch
(Go's `time.Duration` resolution); `Duration.Seconds` followed by the
`int64` conversion is integer division by `10^9` (exact for the
magnitudes involved, where `float64` arithmetic is lossless).
The SQL autoincrement `id` column of `sessions` is not modelled; no
claim mentions it.
-/

namespace Screentime

/-! ## Character-list string helpers

Lean's built-in `String.trim`, `isPrefixOf`, `endsWith` and `toLower` are
implemented on `Substring` with well-founded recursion and do not reduce
in the kernel, so the Go string functions the sources use
(`strings.TrimSpace`, `HasPrefix`, `HasSuffix`, `ToLower`,
`TrimPrefix`) are modelled directly on the character list. -/

def charIsSpace (c : Char) : Bool := c = ' ' || c = '\t' || c = '\n' || c = '\r'

/-- strings.TrimSpace. -/
def strTrim (s : String) : String :=
  ⟨((s.data.dropWhile charIsSpace).reverse.dropWhile charIsSpace).reverse⟩

/-- strings.ToLower (ASCII range, which covers every string compared here). -/
def strToLower (s : String) : String := ⟨s.data.map Char.toLower⟩

/-- strings.HasPrefix pre s. -/
def strHasPrefix (pre s : String) : Bool := pre.data.isPrefixOf s.data

/-- strings.HasSuffix s sfx. -/
def strEndsWith (s sfx : String) : Bool := sfx.data.isSuffixOf s.data

/-- Drop the first n characters. -/
def strDrop (s : String) (n : Nat) : String := ⟨s.data.drop n⟩

/-- Drop the last n elements of a character list. -/
def listDropRight (l : List Char) (n : Nat) : List Char := (l.reverse.drop n).reverse

/-- Split at the first occurrence of a delimiter, returning the parts
before and after it; `none` when the delimiter does not occur. -/
def splitFirst (delim : List Char) : List Char → Option (List Char × List Char)
  | [] => none
  | c :: rest =>
      if delim.isPrefixOf (c :: rest) then some ([], (c :: rest).drop delim.length)
      else
        match splitFirst delim rest with
        | some (a, b) => some (c :: a, b)
        | none => none

/-! ## Data model (internal/storage/session_store.go) -/

/-- Nanoseconds per second: `time.Duration(1e9)`. -/
def nsPerSec : Int := 1000000000

/-- storage.PollUpdate. -/
structure PollUpdate where
  deviceID : String
  appID : String
  appName : String
  state : String
  timestamp : Int
deriving DecidableEq, Repr

/-- storage.CurrentSession: one open-session row of `current_sessions`. -/
structure CurrentSession where
  deviceID : String
  appID : String
  appName : String
  startTime : Int
  lastSeenTime : Int
  state : String
deriving DecidableEq, Repr

/-- storage.Session: one closed-session row of `sessions` (autoincrement id omitted). -/
structure Session where
  deviceID : String
  appID : String
  appName : String
  startTime : Int
  endTime : Int
  durationSecs : Int
  endReason : String
deriving DecidableEq, Repr

/-- storage.UsageEntry. -/
structure UsageEntry where
  deviceID : String
  appID : String
  appName : String
  totalSeconds : Int
deriving DecidableEq, Repr

/-- The database state: the append-only `sessions` ledger and the
`current_sessions` table (primary key `device_id`). -/
structure Store where
  sessions : List Session
  currentSessions : List CurrentSession
deriving DecidableEq, Repr

/-- Go `maxTime` (session_store.go): `if a.After(b) then a else b`. -/
def maxTime (a b : Int) : Int := if b < a then a else b

/-- Go `minTime` (session_store.go): `if a.Before(b) then a else b`. -/
def minTime (a b : Int) : Int := if a < b then a else b

/-- The `SELECT ... FROM current_sessions WHERE device_id = ?` lookup in
`ApplyPoll`; the primary key makes at most one row match. -/
def findCurrent (st : Store) (d : String) : Option CurrentSession :=
  st.currentSessions.find? (fun c => c.deviceID = d)

/-- endSessionTx (session_store.go:201-222): clamp the end to the session
start, insert the closed row into `sessions`, and delete the
`current_sessions` row for the device. -/
def endSessionTx (st : Store) (cur : CurrentSession) (end_ : Int) (reason : String) : Store :=
  let e := if end_ < cur.startTime then cur.startTime else end_
  let dur := (e - cur.startTime) / nsPerSec
  let dur := if dur < 0 then 0 else dur
  { sessions := st.sessions ++
      [⟨cur.deviceID, cur.appID, cur.appName, cur.startTime, e, dur, reason⟩],
    currentSessions := st.currentSessions.filter (fun c => c.deviceID ≠ cur.deviceID) }

/-- The `INSERT INTO current_sessions ... VALUES (..., 'active')` row built
from a poll. -/
def newCurrentSession (p : PollUpdate) : CurrentSession :=
  ⟨p.deviceID, p.appID, p.appName, p.timestamp, p.timestamp, "active"⟩

/-- SessionStore.ApplyPoll (session_store.go:117-199).  The transaction
either commits (`Except.ok` with the new store) or is rolled back
(`Except.error`, store unchanged at the caller). -/
def applyPoll (st : Store) (p : PollUpdate) : Except String Store :=
  if p.deviceID = "" then .error "poll update missing device_id"
  else
    let cur? := findCurrent st p.deviceID
    if p.state = "active" then
      if p.appID = "" ∨ p.appName = "" then .ok st
      else
        match cur? with
        | none =>
            .ok { st with currentSessions := st.currentSessions ++ [newCurrentSession p] }
        | some cur =>
            if cur.appID ≠ p.appID then
              let st1 := endSessionTx st cur p.timestamp "app_change"
              .ok { st1 with currentSessions := st1.currentSessions ++ [newCurrentSession p] }
            else
              .ok { st with currentSessions :=
                st.currentSessions.map (fun c =>
                  if c.deviceID = p.deviceID then { c with lastSeenTime := p.timestamp } else c) }
    else if p.state = "idle" ∨ p.state = "offline" then
      match cur? with
      | none => .ok st
      | some cur => .ok (endSessionTx st cur p.timestamp p.state)
    else
      .ok st

/-- SessionStore.CloseStaleCurrentSessions (session_store.go:56-114):
each `current_sessions` row becomes an `agent_restart` session whose end
is `last_seen_time` pulled back to `now` and pushed up to `start_time`;
afterwards `current_sessions` is emptied.  The whole body is one
transaction that cannot fail in the model. -/
def closeStaleCurrentSessions (st : Store) (now : Int) : Store :=
  let closed := st.currentSessions.map (fun r =>
    let e := if now < r.lastSeenTime then now else r.lastSeenTime
    let e := if e < r.startTime then r.startTime else e
    let dur := (e - r.startTime) / nsPerSec
    let dur := if dur < 0 then 0 else dur
    (⟨r.deviceID, r.appID, r.appName, r.startTime, e, dur, "agent_restart"⟩ : Session))
  { sessions := st.sessions ++ closed, currentSessions := [] }

/-! ## Usage aggregation (session_store.go:294-402)

Go accumulates into `map[key]int64`; since Go map iteration order is
unspecified, the map is embedded as an association list in first-touch
order, which realizes the same set of entries. -/

/-- The aggregation key `(device_id, app_id, app_name)`. -/
structure UsageKey where
  deviceID : String
  appID : String
  appName : String
deriving DecidableEq, Repr

def keyOfSession (s : Session) : UsageKey := ⟨s.deviceID, s.appID, s.appName⟩

def keyOfCurrent (c : CurrentSession) : UsageKey := ⟨c.deviceID, c.appID, c.appName⟩

/-- Go `agg[k] += secs` on the association-list embedding of the map. -/
def addUsage (agg : List (UsageKey × Int)) (k : UsageKey) (secs : Int) : List (UsageKey × Int) :=
  match agg with
  | [] => [(k, secs)]
  | (k1, v) :: rest =>
      if k1 = k then (k1, v + secs) :: rest else (k1, v) :: addUsage rest k secs

/-- The optional `device_id = ?` filter appended to both usage queries. -/
def devMatch (dev : Option String) (d : String) : Bool :=
  match dev with
  | none => true
  | some x => d = x

/-- The closed-session loop body of GetUsageBetween: clip `[sStart, sEnd)`
to the window and accumulate whole seconds when the clip is non-empty. -/
def addClosed (start end_ : Int) (agg : List (UsageKey × Int)) (s : Session) :
    List (UsageKey × Int) :=
  let eStart := maxTime start s.startTime
  let eEnd := minTime end_ s.endTime
  if eStart < eEnd then
    let secs := (eEnd - eStart) / nsPerSec
    let secs := if secs < 0 then 0 else secs
    addUsage agg (keyOfSession s) secs
  else agg

/-- The current-session loop body of GetUsageBetween: the effective end is
`last_seen_time` capped at the window end (`now := end`), then the same
clipping as for closed sessions. -/
def addCurrent (start end_ : Int) (agg : List (UsageKey × Int)) (c : CurrentSession) :
    List (UsageKey × Int) :=
  let sEnd := if c.lastSeenTime < end_ then c.lastSeenTime else end_
  let eStart := maxTime start c.startTime
  let eEnd := minTime end_ sEnd
  if eStart < eEnd then
    let secs := (eEnd - eStart) / nsPerSec
    let secs := if secs < 0 then 0 else secs
    addUsage agg (keyOfCurrent c) secs
  else agg

/-- SessionStore.GetUsageBetween (session_store.go:294-402).  The SQL
`WHERE end_time > ? AND start_time < ?` filter of the closed-session query
and the optional device filters are applied as list filters. -/
def getUsageBetween (st : Store) (start end_ : Int) (dev : Option String) : List UsageEntry :=
  if ¬ start < end_ then []
  else
    let closed := st.sessions.filter
      (fun s => start < s.endTime && s.startTime < end_ && devMatch dev s.deviceID)
    let curs := st.currentSessions.filter (fun c => devMatch dev c.deviceID)
    let agg := curs.foldl (addCurrent start end_) (closed.foldl (addClosed start end_) [])
    agg.map (fun kv => ⟨kv.1.deviceID, kv.1.appID, kv.1.appName, kv.2⟩)

/-! ## Roku poller (src/unnamed/part_000, package poller) -/

/-- poller.PollResult. -/
structure PollResult where
  deviceID : String
  appID : String
  appName : String
  state : String
  timestamp : Int
deriving DecidableEq, Repr

/-- poller.isIdleAppName. -/
def isIdleAppName (name : String) : Bool :=
  let l := strToLower (strTrim name)
  l = "roku" || l = "home" || l = "screensaver" || l = "roku home"

/-- Models encoding/xml `Unmarshal` for the active-app wire document of
section 6 of the spec: it succeeds on documents of the shape
`<active-app><app id="ID">NAME</app></active-app>` (allowing surrounding
whitespace and a leading XML declaration), yielding the id attribute and
the character data, and fails on anything else.  In particular Go's
`xml.Unmarshal` reports `io.EOF` on an empty body, so the empty string
parses to `none`. -/
def xmlUnmarshalActiveApp (body : String) : Option (String × String) :=
  let s := strTrim body
  let s := if strHasPrefix "<?xml" s then
      match splitFirst "?>".data s.data with
      | some (_, rest) => strTrim ⟨rest⟩
      | none => s
    else s
  if strHasPrefix "<active-app>" s && strEndsWith s "</active-app>" then
    let inner := strTrim ⟨listDropRight (s.data.drop 12) 13⟩
    if strHasPrefix "<app id=\"" inner && strEndsWith inner "</app>" then
      match splitFirst "\">".data (listDropRight (inner.data.drop 9) 6) with
      | some (id, name) => some (⟨id⟩, ⟨name⟩)
      | none => none
    else none
  else none

/-- The outcome of the single HTTP GET issued by RokuPoller.Poll, from
`client.Do` onward: `none` is a transport error from `Do`; otherwise the
response status and the outcome of `io.ReadAll` on the body.  (The
`http.NewRequestWithContext` construction step cannot fail for the URLs
the poller builds and is outside this model.) -/
structure HttpExchange where
  status : Nat
  bodyRead : Except Unit String
deriving Repr

/-- The two error exits of RokuPoller.Poll inside the model. -/
inductive PollErr where
  | readBody
  | unmarshal
deriving DecidableEq, Repr

/-- RokuPoller.Poll (src/unnamed/part_000:45-93): the result is
pre-populated as offline with the poll time; transport errors and non-200
statuses return it as-is with a nil error, while body-read and unmarshal
failures return it with an error. -/
def rokuPoll (deviceID : String) (now : Int) (exch : Option HttpExchange) :
    PollResult × Option PollErr :=
  let res : PollResult := ⟨deviceID, "", "", "offline", now⟩
  match exch with
  | none => (res, none)
  | some e =>
    if e.status ≠ 200 then (res, none)
    else
      match e.bodyRead with
      | .error _ => (res, some .readBody)
      | .ok body =>
        match xmlUnmarshalActiveApp body with
        | none => (res, some .unmarshal)
        | some (rawID, rawName) =>
          let appID := strTrim rawID
          let appName := strTrim rawName
          let res := { res with appID := appID, appName := appName }
          if appName = "" || isIdleAppName appName then
            ({ res with state := "idle" }, none)
          else
            ({ res with state := "active" }, none)

/-! ## Linux categorizer (internal/linux/categorizer.go, config.go,
src/unnamed/part_002) -/

/-- linux.Category (internal/linux/config.go). -/
structure Category where
  domains : List String
  domainSuffixes : List String
deriving DecidableEq, Repr

/-- Whether one category's rules match the lowercased domain: the body of
the per-category loops of Categorizer.Categorize. -/
def categoryMatches (domainLower : String) (cat : Category) : Bool :=
  cat.domains.any (fun d =>
    strToLower d = domainLower || strEndsWith domainLower ("." ++ strToLower d))
  || cat.domainSuffixes.any (fun sfx => strEndsWith domainLower (strToLower sfx))

/-- Categorizer.Categorize (internal/linux/categorizer.go:19-47).  The Go
`map[string]Category` is embedded as an association list; its iteration
order is unspecified in Go, so every theorem quantifies over the list
order. -/
def categorize (cats : List (String × Category)) (domain : String) : String :=
  if domain = "" then "uncategorized"
  else
    let domainLower := strToLower domain
    match cats.find? (fun nc => categoryMatches domainLower nc.2) with
    | some nc => nc.1
    | none => "uncategorized"

/-- The `strings.TrimPrefix(host, "www.")` step of extractDomain
(src/unnamed/part_002:121-133); `url.Parse` and `Hostname()` are outside
the model, which starts from the extracted host. -/
def stripWWW (host : String) : String :=
  if strHasPrefix "www." host then strDrop host 4 else host

/-! ## Aggregator config (internal/config/config.go) -/

/-- config.DeviceConfig. -/
structure DeviceConfig where
  id : String
  baseURL : String
  pollIntervalSeconds : Int
  tags : List String
deriving DecidableEq, Repr

/-- config.Config as decoded by encoding/json.  Absent JSON fields are
left at Go zero values by `json.Unmarshal`: an absent `day_start_hour`
arrives here as `0`, an absent `http_listen` as `""`. -/
structure AggConfig where
  databasePath : String
  httpListen : String
  dayStartHour : Int
  timezone : String
  devices : List DeviceConfig
deriving DecidableEq, Repr

/-- The per-device validation loop of LoadConfig (config.go:52-62). -/
def validateDevices : List DeviceConfig → Except String Unit
  | [] => .ok ()
  | d :: rest =>
      if d.id = "" then .error "device id is required"
      else if d.baseURL = "" then .error "device base_url is required"
      else if d.pollIntervalSeconds ≤ 0 then .error "device poll_interval_seconds must be > 0"
      else validateDevices rest

/-- config.LoadConfig (internal/config/config.go:26-65) after the
`os.ReadFile` and `json.Unmarshal` steps: apply defaults, then validate.
Note the default kicks in whenever the decoded `DayStartHour` is `0`,
which is also what an absent field decodes to. -/
def loadConfig (cfg : AggConfig) : Except String AggConfig :=
  let cfg := if cfg.httpListen = "" then { cfg with httpListen := ":8080" } else cfg
  let cfg := if cfg.dayStartHour = 0 then { cfg with dayStartHour := 7 } else cfg
  if cfg.databasePath = "" then .error "database_path is required"
  else if cfg.devices.isEmpty then .error "at least one device is required"
  else
    match validateDevices cfg.devices with
    | .error e => .error e
    | .ok _ => .ok cfg

/-! ## Sequencing and invariants (spec section 3 and 8) -/

/-- One runner step (src/unnamed/part_001): the poll result is applied with
`ApplyPoll`; an error is logged and discarded, leaving the committed state
unchanged (the transaction rolled back). -/
def stepPoll (st : Store) (p : PollUpdate) : Store :=
  match applyPoll st p with
  | .ok st1 => st1
  | .error _ => st

/-- A sequence of polls folded through the store, in delivery order. -/
def runPolls (st : Store) (ps : List PollUpdate) : Store :=
  ps.foldl stepPoll st

/-- Global invariant 1 of the spec: at most one `current_sessions` row per
device — the `device_id` column is duplicate-free. -/
def atMostOneOpen (st : Store) : Prop :=
  (st.currentSessions.map (fun c => c.deviceID)).Nodup

/-! ## Spec-side definitions (for the refinement claims)

These follow the wording of the spec, to be compared with the
definitions embedded from the source. -/

/-- The closed row the spec's closing rule prescribes:
`end = max(p.Timestamp, cur.StartTime)`, `DurationSeconds = floor(end − StartTime)`. -/
def endedRow (cur : CurrentSession) (t : Int) (reason : String) : Session :=
  ⟨cur.deviceID, cur.appID, cur.appName, cur.startTime, max t cur.startTime,
    (max t cur.startTime - cur.startTime) / nsPerSec, reason⟩

/-- The closed row the spec prescribes for startup reconciliation:
`end = clamp(LastSeenTime, [StartTime, now])`, reason `agent_restart`. -/
def staleClosedRow (now : Int) (r : CurrentSession) : Session :=
  ⟨r.deviceID, r.appID, r.appName, r.startTime, max r.startTime (min r.lastSeenTime now),
    (max r.startTime (min r.lastSeenTime now) - r.startTime) / nsPerSec, "agent_restart"⟩

/-- The key of a UsageEntry. -/
def keyOfEntry (e : UsageEntry) : UsageKey := ⟨e.deviceID, e.appID, e.appName⟩

/-- Total seconds a usage result credits to one key (the map-equivalent
reading of the entry list). -/
def lookupUsage : List UsageEntry → UsageKey → Int
  | [], _ => 0
  | e :: rest, k => (if keyOfEntry e = k then e.totalSeconds else 0) + lookupUsage rest k

/-- Association-list lookup-sum over the aggregation accumulator. -/
def aggLookup : List (UsageKey × Int) → UsageKey → Int
  | [], _ => 0
  | kv :: rest, k => (if kv.1 = k then kv.2 else 0) + aggLookup rest k

/-- The seconds the closed-session loop of GetUsageBetween adds for one
session row (0 when the clipped interval is empty). -/
def codeClosedSecs (start end_ : Int) (s : Session) : Int :=
  let eStart := maxTime start s.startTime
  let eEnd := minTime end_ s.endTime
  if eStart < eEnd then
    let secs := (eEnd - eStart) / nsPerSec
    if secs < 0 then 0 else secs
  else 0

/-- The seconds the current-session loop of GetUsageBetween adds for one
open row. -/
def codeCurrentSecs (start end_ : Int) (c : CurrentSession) : Int :=
  let sEnd := if c.lastSeenTime < end_ then c.lastSeenTime else end_
  let eStart := maxTime start c.startTime
  let eEnd := minTime end_ sEnd
  if eStart < eEnd then
    let secs := (eEnd - eStart) / nsPerSec
    if secs < 0 then 0 else secs
  else 0

/-- The claim's contribution of a closed session to a window:
`max(0, min(end, sEnd) − max(start, sStart))`, in whole seconds. -/
def specClosedContribution (start end_ : Int) (s : Session) : Int :=
  max 0 (min end_ s.endTime - max start s.startTime) / nsPerSec

/-- The claim's contribution of an open session: the effective end is
`min(end, LastSeenTime)`, then the same clipping formula. -/
def specCurrentContribution (start end_ : Int) (c : CurrentSession) : Int :=
  max 0 (min end_ (min end_ c.lastSeenTime) - max start c.startTime) / nsPerSec

/-- The claim's per-key usage total over a window: the clipped
contributions summed over every (device-filtered) session of the key. -/
def specUsage (st : Store) (start end_ : Int) (dev : Option String) (k : UsageKey) : Int :=
  ((st.sessions.filter (fun s => keyOfSession s = k ∧ devMatch dev s.deviceID)).map
      (specClosedContribution start end_)).sum
  + ((st.currentSessions.filter (fun c => keyOfCurrent c = k ∧ devMatch dev c.deviceID)).map
      (specCurrentContribution start end_)).sum

/-- The matching predicate exactly as the claim words it: the domain
equals a listed domain, ends with `"." ++ domain`, or ends with a listed
suffix — all case-sensitively. -/
def claimDomainMatch (cat : Category) (domain : String) : Bool :=
  cat.domains.any (fun d => domain = d || strEndsWith domain ("." ++ d))
  || cat.domainSuffixes.any (fun sfx => strEndsWith domain sfx)

/-- The amended matching predicate: the same three rules applied to the
lowercased domain and lowercased patterns (the code lowercases both
sides). -/
def claimDomainMatchCI (cat : Category) (domain : String) : Bool :=
  cat.domains.any (fun d =>
    strToLower domain = strToLower d ||
      strEndsWith (strToLower domain) ("." ++ strToLower d))
  || cat.domainSuffixes.any (fun sfx => strEndsWith (strToLower domain) (strToLower sfx))

/-- The row list after a same-app heartbeat: only the device's row has its
`last_seen_time` replaced by the poll timestamp (the SQL UPDATE of the
same-app branch). -/
def sameAppUpdate (st : Store) (p : PollUpdate) : List CurrentSession :=
  st.currentSessions.map (fun c =>
    if c.deviceID = p.deviceID then { c with lastSeenTime := p.timestamp } else c)

/-! ## Concrete fixtures used by witnesses and counterexamples -/

/-- The S6 category configuration of the spec. -/
def homeworkCats : List (String × Category) :=
  [("homework", ⟨["khanacademy.org"], [".edu"]⟩)]

/-- A decoded aggregator config with an explicit in-range
`day_start_hour` of 0 and everything else valid. -/
def cfgZero : AggConfig :=
  ⟨"screentime.db", ":8080", 0, "", [⟨"tv", "http://tv:8060", 60, []⟩]⟩

/-- A decoded aggregator config with `day_start_hour` 5 and an absent
`http_listen`. -/
def cfgFive : AggConfig :=
  ⟨"screentime.db", "", 5, "UTC", [⟨"tv", "http://tv:8060", 60, []⟩]⟩

/-- An open Netflix session row used in concrete scenarios. -/
def nflxRow : CurrentSession :=
  ⟨"tv", "NFLX", "Netflix", 0, 300 * nsPerSec, "active"⟩

/-- A store holding only the open Netflix row. -/
def nflxStore : Store := ⟨[], [nflxRow]⟩

/-- An active same-app heartbeat poll for the Netflix row. -/
def nflxPoll : PollUpdate := ⟨"tv", "NFLX", "Netflix", "active", 360 * nsPerSec⟩

/-! ## Bridging lemmas -/

theorem ite_lt_right_eq_max (a b : Int) : (if a < b then b else a) = max a b := by
  rcases le_or_lt b a with h | h
  · simp [not_lt.mpr h, max_eq_left h]
  · simp [h, max_eq_right h.le]

theorem ite_lt_left_eq_min (a b : Int) : (if a < b then a else b) = min a b := by
  rcases le_or_lt b a with h | h
  · simp [not_lt.mpr h, min_eq_right h]
  · simp [h, min_eq_left h.le]

theorem div_ns_nonneg (a : Int) (h : 0 ≤ a) : 0 ≤ a / nsPerSec :=
  Int.ediv_nonneg h (by norm_num [nsPerSec])

/-- endSessionTx realizes the spec's closing rule. -/
theorem endSessionTx_eq (st : Store) (cur : CurrentSession) (t : Int) (reason : String) :
    endSessionTx st cur t reason =
      ⟨st.sessions ++ [endedRow cur t reason],
        st.currentSessions.filter (fun c => c.deviceID ≠ cur.deviceID)⟩ := by
  have h1 : (if t < cur.startTime then cur.startTime else t) = max t cur.startTime :=
    ite_lt_right_eq_max t cur.startTime
  have h2 : 0 ≤ (max t cur.startTime - cur.startTime) / nsPerSec :=
    div_ns_nonneg _ (by have := le_max_right t cur.startTime; omega)
  simp only [endSessionTx, endedRow, h1, if_neg (not_lt.mpr h2)]

/-- CloseStaleCurrentSessions realizes the spec's clamp rule per row and
empties the table. -/
theorem closeStale_eq (st : Store) (now : Int) :
    closeStaleCurrentSessions st now =
      ⟨st.sessions ++ st.currentSessions.map (staleClosedRow now), []⟩ := by
  simp only [closeStaleCurrentSessions]
  congr 1
  congr 1
  apply List.map_congr_left
  intro r _
  have h1 : (if now < r.lastSeenTime then now else r.lastSeenTime) = min r.lastSeenTime now := by
    rw [ite_lt_left_eq_min, min_comm]
  have h2 : (if min r.lastSeenTime now < r.startTime then r.startTime
      else min r.lastSeenTime now) = max r.startTime (min r.lastSeenTime now) := by
    rw [ite_lt_right_eq_max, max_comm]
  have h3 : 0 ≤ (max r.startTime (min r.lastSeenTime now) - r.startTime) / nsPerSec :=
    div_ns_nonneg _ (by have := le_max_left r.startTime (min r.lastSeenTime now); omega)
  simp only [h1, h2, staleClosedRow, if_neg (not_lt.mpr h3)]

/-! ## ApplyPoll case lemmas (the transition table, case by case) -/

theorem applyPoll_no_device (st : Store) (p : PollUpdate) (hd : p.deviceID = "") :
    applyPoll st p = .error "poll update missing device_id" := by
  simp [applyPoll, hd]

theorem applyPoll_active_malformed (st : Store) (p : PollUpdate) (hd : p.deviceID ≠ "")
    (hs : p.state = "active") (ha : p.appID = "" ∨ p.appName = "") :
    applyPoll st p = .ok st := by
  simp [applyPoll, hd, hs, ha]

theorem applyPoll_active_new (st : Store) (p : PollUpdate) (hd : p.deviceID ≠ "")
    (hs : p.state = "active") (ha1 : p.appID ≠ "") (ha2 : p.appName ≠ "")
    (hfind : findCurrent st p.deviceID = none) :
    applyPoll st p =
      .ok { st with currentSessions := st.currentSessions ++ [newCurrentSession p] } := by
  simp [applyPoll, hd, hs, ha1, ha2, hfind]

theorem applyPoll_active_same (st : Store) (p : PollUpdate) (cur : CurrentSession)
    (hd : p.deviceID ≠ "") (hs : p.state = "active") (ha1 : p.appID ≠ "") (ha2 : p.appName ≠ "")
    (hfind : findCurrent st p.deviceID = some cur) (hsame : cur.appID = p.appID) :
    applyPoll st p =
      .ok { st with currentSessions := st.currentSessions.map (fun c =>
        if c.deviceID = p.deviceID then { c with lastSeenTime := p.timestamp } else c) } := by
  simp [applyPoll, hd, hs, ha1, ha2, hfind, hsame]

theorem applyPoll_active_change (st : Store) (p : PollUpdate) (cur : CurrentSession)
    (hd : p.deviceID ≠ "") (hs : p.state = "active") (ha1 : p.appID ≠ "") (ha2 : p.appName ≠ "")
    (hfind : findCurrent st p.deviceID = some cur) (hdiff : cur.appID ≠ p.appID) :
    applyPoll st p =
      .ok ⟨st.sessions ++ [endedRow cur p.timestamp "app_change"],
        (st.currentSessions.filter (fun c => c.deviceID ≠ cur.deviceID)) ++
          [newCurrentSession p]⟩ := by
  simp [applyPoll, hd, hs, ha1, ha2, hfind, hdiff, endSessionTx_eq]

theorem applyPoll_close_none (st : Store) (p : PollUpdate) (hd : p.deviceID ≠ "")
    (hs : p.state = "idle" ∨ p.state = "offline")
    (hfind : findCurrent st p.deviceID = none) :
    applyPoll st p = .ok st := by
  have hs1 : p.state ≠ "active" := by rcases hs with h | h <;> simp [h]
  simp [applyPoll, hd, hs, hs1, hfind]

theorem applyPoll_close_some (st : Store) (p : PollUpdate) (cur : CurrentSession)
    (hd : p.deviceID ≠ "") (hs : p.state = "idle" ∨ p.state = "offline")
    (hfind : findCurrent st p.deviceID = some cur) :
    applyPoll st p =
      .ok ⟨st.sessions ++ [endedRow cur p.timestamp p.state],
        st.currentSessions.filter (fun c => c.deviceID ≠ cur.deviceID)⟩ := by
  have hs1 : p.state ≠ "active" := by rcases hs with h | h <;> simp [h]
  simp [applyPoll, hd, hs, hs1, hfind, endSessionTx_eq]

theorem applyPoll_unknown (st : Store) (p : PollUpdate) (hd : p.deviceID ≠ "")
    (hs1 : p.state ≠ "active") (hs2 : p.state ≠ "idle") (hs3 : p.state ≠ "offline") :
    applyPoll st p = .ok st := by
  simp [applyPoll, hd, hs1, hs2, hs3]

/-! ## Claim C1 -/

/-- C1: ApplyPoll implements exactly the specified transition table,
atomically: empty DeviceID is rejected with a precondition error and no
state change; an active poll with empty AppID or AppName is a no-op; an
active poll with no open session inserts a fresh row with
`Start = LastSeen = p.Timestamp` and state `active`; a same-app active
poll only advances `last_seen_time`; a different-app active poll closes
the open session at `p.Timestamp` with reason `app_change` and inserts a
fresh row; idle and offline polls close the open session with reason
`idle` or `offline` (a no-op when none is open); an unknown state is a
no-op. -/
theorem claim_C1_transition_table (st : Store) (p : PollUpdate) :
    (p.deviceID = "" → applyPoll st p = .error "poll update missing device_id") ∧
    (p.deviceID ≠ "" → p.state = "active" → (p.appID = "" ∨ p.appName = "") →
      applyPoll st p = .ok st) ∧
    (p.deviceID ≠ "" → p.state = "active" → p.appID ≠ "" → p.appName ≠ "" →
      findCurrent st p.deviceID = none →
      applyPoll st p = .ok ⟨st.sessions, st.currentSessions ++
        [⟨p.deviceID, p.appID, p.appName, p.timestamp, p.timestamp, "active"⟩]⟩) ∧
    (∀ cur, p.deviceID ≠ "" → p.state = "active" → p.appID ≠ "" → p.appName ≠ "" →
      findCurrent st p.deviceID = some cur → cur.appID = p.appID →
      applyPoll st p = .ok ⟨st.sessions, sameAppUpdate st p⟩) ∧
    (∀ cur, p.deviceID ≠ "" → p.state = "active" → p.appID ≠ "" → p.appName ≠ "" →
      findCurrent st p.deviceID = some cur → cur.appID ≠ p.appID →
      applyPoll st p = .ok ⟨st.sessions ++ [endedRow cur p.timestamp "app_change"],
        (st.currentSessions.filter (fun c => c.deviceID ≠ cur.deviceID)) ++
          [⟨p.deviceID, p.appID, p.appName, p.timestamp, p.timestamp, "active"⟩]⟩) ∧
    (p.deviceID ≠ "" → (p.state = "idle" ∨ p.state = "offline") →
      findCurrent st p.deviceID = none → applyPoll st p = .ok st) ∧
    (∀ cur, p.deviceID ≠ "" → (p.state = "idle" ∨ p.state = "offline") →
      findCurrent st p.deviceID = some cur →
      applyPoll st p = .ok ⟨st.sessions ++ [endedRow cur p.timestamp p.state],
        st.currentSessions.filter (fun c => c.deviceID ≠ cur.deviceID)⟩) ∧
    (p.deviceID ≠ "" → p.state ≠ "active" → p.state ≠ "idle" → p.state ≠ "offline" →
      applyPoll st p = .ok st) := by
  refine ⟨applyPoll_no_device st p,
    applyPoll_active_malformed st p,
    fun hd hs ha1 ha2 hfind => applyPoll_active_new st p hd hs ha1 ha2 hfind,
    fun cur hd hs ha1 ha2 hfind hsame => applyPoll_active_same st p cur hd hs ha1 ha2 hfind hsame,
    fun cur hd hs ha1 ha2 hfind hdiff => applyPoll_active_change st p cur hd hs ha1 ha2 hfind hdiff,
    fun hd hs hfind => applyPoll_close_none st p hd hs hfind,
    fun cur hd hs hfind => applyPoll_close_some st p cur hd hs hfind,
    applyPoll_unknown st p⟩

/-- Witness for C1: the insert-new-session transition at a concrete poll. -/
theorem claim_C1_transition_table_witness :
    applyPoll ⟨[], []⟩ ⟨"tv", "NFLX", "Netflix", "active", 5⟩ =
      .ok ⟨[], [⟨"tv", "NFLX", "Netflix", 5, 5, "active"⟩]⟩ :=
  (claim_C1_transition_table ⟨[], []⟩ ⟨"tv", "NFLX", "Netflix", "active", 5⟩).2.2.1
    (by decide) rfl (by decide) (by decide) rfl

/-! ## Claim C2 -/

/-- C2: whenever ApplyPoll closes an open session `cur` at poll timestamp
`t` (both closing paths call endSessionTx with `end = p.Timestamp`), the
written Session has `EndTime = max(t, cur.StartTime)` and
`DurationSeconds = floor(EndTime − StartTime)` seconds, always ≥ 0; a
timestamp earlier than the session start yields duration exactly 0. -/
theorem claim_C2_closing_rule (st : Store) (cur : CurrentSession) (t : Int) (reason : String) :
    (endSessionTx st cur t reason).sessions = st.sessions ++ [endedRow cur t reason] ∧
    (endedRow cur t reason).endTime = max t cur.startTime ∧
    (endedRow cur t reason).durationSecs =
      ((endedRow cur t reason).endTime - (endedRow cur t reason).startTime) / nsPerSec ∧
    0 ≤ (endedRow cur t reason).durationSecs ∧
    (t < cur.startTime → (endedRow cur t reason).durationSecs = 0) := by
  refine ⟨by rw [endSessionTx_eq], rfl, rfl, ?_, ?_⟩
  · exact div_ns_nonneg _ (by have := le_max_right t cur.startTime; omega)
  · intro h
    simp [endedRow, max_eq_right h.le]

/-- Witness for C2: an out-of-order close (timestamp before the session
start) writes duration 0. -/
theorem claim_C2_closing_rule_witness :
    (endedRow ⟨"tv", "A", "App", 10, 10, "active"⟩ 3 "idle").durationSecs = 0 :=
  (claim_C2_closing_rule ⟨[], []⟩ ⟨"tv", "A", "App", 10, 10, "active"⟩ 3 "idle").2.2.2.2
    (by decide)

/-! ## Claim C5 -/

/-- C5: CloseStaleCurrentSessions converts, in one transaction, every
current row into a Session with `EndTime = clamp(LastSeenTime,
[StartTime, now])` and reason `agent_restart` (a LastSeenTime past `now`
is pulled back to `now`, duration is never negative), and empties
`current_sessions`. -/
theorem claim_C5_close_stale (st : Store) (now : Int) :
    (closeStaleCurrentSessions st now).currentSessions = [] ∧
    (closeStaleCurrentSessions st now).sessions =
      st.sessions ++ st.currentSessions.map (staleClosedRow now) ∧
    (∀ r ∈ st.currentSessions,
      (staleClosedRow now r).endTime = max r.startTime (min r.lastSeenTime now) ∧
      (staleClosedRow now r).endReason = "agent_restart" ∧
      0 ≤ (staleClosedRow now r).durationSecs ∧
      (now < r.lastSeenTime → r.startTime ≤ now → (staleClosedRow now r).endTime = now)) := by
  refine ⟨by rw [closeStale_eq], by rw [closeStale_eq], ?_⟩
  intro r _
  refine ⟨rfl, rfl, ?_, ?_⟩
  · exact div_ns_nonneg _
      (by have := le_max_left r.startTime (min r.lastSeenTime now); omega)
  · intro h1 h2
    simp [staleClosedRow, min_eq_right h1.le, max_eq_right h2]

/-- Witness for C5: a LastSeenTime past `now` is clamped to `now`. -/
theorem claim_C5_close_stale_witness :
    (staleClosedRow (100 * nsPerSec) nflxRow).endTime = 100 * nsPerSec :=
  ((claim_C5_close_stale nflxStore (100 * nsPerSec)).2.2 nflxRow
      (by simp [nflxStore])).2.2.2 (by norm_num [nflxRow, nsPerSec])
    (by norm_num [nflxRow, nsPerSec])

/-! ## Claim C10 -/

/-- C10: a same-app active poll writes `LastSeenTime := p.Timestamp`
unconditionally — the theorem imposes no relation between `p.Timestamp`
and the stored `last_seen_time`, so an earlier timestamp is applied too —
and changes nothing else: the sessions ledger, the other rows, and the
non-LastSeen fields of the device's row are untouched. -/
theorem claim_C10_same_app_frame (st : Store) (p : PollUpdate) (cur : CurrentSession)
    (hd : p.deviceID ≠ "") (hs : p.state = "active") (ha1 : p.appID ≠ "") (ha2 : p.appName ≠ "")
    (hfind : findCurrent st p.deviceID = some cur) (hsame : cur.appID = p.appID) :
    applyPoll st p = .ok ⟨st.sessions, sameAppUpdate st p⟩ ∧
    (∀ c ∈ sameAppUpdate st p, c.deviceID = p.deviceID → c.lastSeenTime = p.timestamp) ∧
    (∀ c ∈ sameAppUpdate st p, c.deviceID ≠ p.deviceID → c ∈ st.currentSessions) ∧
    (sameAppUpdate st p).map (fun c => (c.deviceID, c.appID, c.appName, c.startTime, c.state)) =
      st.currentSessions.map
        (fun c => (c.deviceID, c.appID, c.appName, c.startTime, c.state)) := by
  refine ⟨applyPoll_active_same st p cur hd hs ha1 ha2 hfind hsame, ?_, ?_, ?_⟩
  · intro c hc hcd
    rcases List.mem_map.mp hc with ⟨a, _, rfl⟩
    by_cases h : a.deviceID = p.deviceID
    · simp [h]
    · simp only [if_neg h] at hcd ⊢
      exact absurd hcd h
  · intro c hc hcd
    rcases List.mem_map.mp hc with ⟨a, ha, rfl⟩
    by_cases h : a.deviceID = p.deviceID
    · simp only [if_pos h] at hcd
      exact absurd h hcd
    · simpa [if_neg h] using ha
  · rw [sameAppUpdate, List.map_map]
    apply List.map_congr_left
    intro a _
    by_cases h : a.deviceID = p.deviceID <;> simp [h]

/-- Witness for C10: a heartbeat on the open Netflix row advances only
its `last_seen_time`. -/
theorem claim_C10_same_app_frame_witness :
    applyPoll nflxStore nflxPoll = .ok ⟨nflxStore.sessions, sameAppUpdate nflxStore nflxPoll⟩ :=
  (claim_C10_same_app_frame nflxStore nflxPoll nflxRow (by decide) rfl (by decide) (by decide)
    (by decide) rfl).1

/-! ## Claim C6 -/

/-- Counterexample to C6: the claim lists an empty response body among the
reachability faults that yield offline with a nil error, but on a 200
response with an empty body the code reaches `xml.Unmarshal`, which fails
on empty input (io.EOF), so Poll returns a non-nil error. -/
theorem claim_C6_fault_mapping_cex :
    (rokuPoll "tv" 0 (some ⟨200, Except.ok ""⟩)).2 ≠ none ∧
    rokuPoll "tv" 0 (some ⟨200, Except.ok ""⟩) =
      (⟨"tv", "", "", "offline", 0⟩, some PollErr.unmarshal) := by
  refine ⟨by decide, by decide⟩

/-- C6 as amended: connection failure and non-200 status are mapped to an
offline PollResult with empty app fields and a nil error; errors are
returned exactly for body-read failure after a successful response and
for XML unmarshal failure on a 200 response — and an empty body on a 200
is such an unmarshal failure, not an offline mapping.  The last two
conjuncts settle the exclusivity: a 200 whose body unmarshals returns a
nil error, and every non-nil error comes from a 200 exchange whose body
read failed or whose body does not unmarshal. -/
theorem claim_C6_fault_mapping (d : String) (now : Int) :
    (rokuPoll d now none = (⟨d, "", "", "offline", now⟩, none)) ∧
    (∀ e : HttpExchange, e.status ≠ 200 →
      rokuPoll d now (some e) = (⟨d, "", "", "offline", now⟩, none)) ∧
    (rokuPoll d now (some ⟨200, Except.error ()⟩) =
      (⟨d, "", "", "offline", now⟩, some PollErr.readBody)) ∧
    (∀ body, xmlUnmarshalActiveApp body = none →
      rokuPoll d now (some ⟨200, Except.ok body⟩) =
        (⟨d, "", "", "offline", now⟩, some PollErr.unmarshal)) ∧
    (xmlUnmarshalActiveApp "" = none) ∧
    (∀ body pair, xmlUnmarshalActiveApp body = some pair →
      (rokuPoll d now (some ⟨200, Except.ok body⟩)).2 = none) ∧
    (∀ e : HttpExchange, (rokuPoll d now (some e)).2 ≠ none →
      e.status = 200 ∧ (e.bodyRead = Except.error () ∨
        ∃ body, e.bodyRead = Except.ok body ∧ xmlUnmarshalActiveApp body = none)) := by
  refine ⟨rfl, ?_, rfl, ?_, by decide, ?_, ?_⟩
  · intro e he
    simp [rokuPoll, he]
  · intro body hb
    simp [rokuPoll, hb]
  · intro body pair h
    obtain ⟨id, name⟩ := pair
    simp only [rokuPoll, h]
    split
    · rfl
    · split <;> rfl
  · rintro ⟨st0, br⟩ he
    by_cases hst : st0 = 200
    · subst hst
      refine ⟨rfl, ?_⟩
      cases br with
      | error u =>
          cases u
          exact Or.inl rfl
      | ok body =>
          right
          refine ⟨body, rfl, ?_⟩
          by_contra hx
          obtain ⟨pair, hpair⟩ := Option.ne_none_iff_exists'.mp hx
          obtain ⟨id, name⟩ := pair
          apply he
          simp only [rokuPoll, hpair]
          split
          · rfl
          · split <;> rfl
    · exact absurd
        (show (rokuPoll d now (some ⟨st0, br⟩)).2 = none by simp [rokuPoll, hst]) he

/-- Witness for C6 (amended): a 404 response maps to offline with a nil
error. -/
theorem claim_C6_fault_mapping_witness :
    rokuPoll "tv" 7 (some ⟨404, Except.ok "x"⟩) = (⟨"tv", "", "", "offline", 7⟩, none) :=
  (claim_C6_fault_mapping "tv" 7).2.1 ⟨404, Except.ok "x"⟩ (by decide)

/-! ## Claim C8 -/

/-- The code's per-category match on the lowercased domain coincides with
the amended claim's case-insensitive predicate. -/
theorem claimDomainMatchCI_eq (cat : Category) (domain : String) :
    claimDomainMatchCI cat domain = categoryMatches (strToLower domain) cat := by
  unfold claimDomainMatchCI categoryMatches
  congr 1
  apply congrArg
  funext d
  congr 1
  exact decide_eq_decide.mpr eq_comm

/-- Counterexample to C8: matching in the code is case-insensitive (both
sides are lowercased), so `MIT.EDU` — which matches none of the claim's
case-sensitive rules for the homework category — is still categorized as
homework; and an empty domain short-circuits to `uncategorized` even when
a listed raw suffix (the empty suffix) matches it per the claim. -/
theorem claim_C8_categorize_cex :
    categorize homeworkCats "MIT.EDU" = "homework" ∧
    claimDomainMatch ⟨["khanacademy.org"], [".edu"]⟩ "MIT.EDU" = false ∧
    categorize [("all", ⟨[], [""]⟩)] "" = "uncategorized" ∧
    claimDomainMatch ⟨[], [""]⟩ "" = true := by
  refine ⟨by decide, by decide, by decide, by decide⟩

/-- C8 as amended: for a non-empty domain, Categorize returns the name of
a category whose rules match case-insensitively (lowercased domain
against lowercased patterns) exactly when one matches, and
`uncategorized` otherwise; an empty domain is always `uncategorized`.
The S6 examples behave as the claim states. -/
theorem claim_C8_categorize (cats : List (String × Category)) (domain : String) :
    (domain = "" → categorize cats domain = "uncategorized") ∧
    (domain ≠ "" → (∃ pair ∈ cats, claimDomainMatchCI pair.2 domain = true) →
      ∃ pair ∈ cats, claimDomainMatchCI pair.2 domain = true ∧
        categorize cats domain = pair.1) ∧
    (domain ≠ "" → (∀ pair ∈ cats, claimDomainMatchCI pair.2 domain = false) →
      categorize cats domain = "uncategorized") ∧
    (categorize homeworkCats (stripWWW "www.khanacademy.org") = "homework" ∧
      categorize homeworkCats "mit.edu" = "homework" ∧
      categorize homeworkCats "khanacademyfoo.org" = "uncategorized") := by
  refine ⟨fun h => by simp [categorize, h], ?_, ?_, by decide, by decide, by decide⟩
  · intro hne hex
    rcases hex with ⟨pair, hmem, hci⟩
    have hsome : (cats.find? (fun nc => categoryMatches (strToLower domain) nc.2)).isSome := by
      apply List.find?_isSome.mpr
      exact ⟨pair, hmem, by rw [← claimDomainMatchCI_eq]; exact hci⟩
    rcases Option.isSome_iff_exists.mp hsome with ⟨nc, hfind⟩
    refine ⟨nc, List.mem_of_find?_eq_some hfind, ?_, ?_⟩
    · rw [claimDomainMatchCI_eq]
      have h := List.find?_some
        (p := fun nc : String × Category => categoryMatches (strToLower domain) nc.2) hfind
      simpa using h
    · simp [categorize, hne, hfind]
  · intro hne hall
    have hnone : cats.find? (fun nc => categoryMatches (strToLower domain) nc.2) = none := by
      apply List.find?_eq_none.mpr
      intro nc hmem
      rw [← claimDomainMatchCI_eq]
      simp [hall nc hmem]
    simp [categorize, hne, hnone]

/-- Witness for C8 (amended): the empty domain is uncategorized. -/
theorem claim_C8_categorize_witness :
    categorize homeworkCats "" = "uncategorized" :=
  (claim_C8_categorize homeworkCats "").1 rfl

/-! ## Claim C9 -/

/-- The device-validation loop succeeds on a list of valid devices. -/
theorem validateDevices_ok (l : List DeviceConfig)
    (h : ∀ d ∈ l, d.id ≠ "" ∧ d.baseURL ≠ "" ∧ 0 < d.pollIntervalSeconds) :
    validateDevices l = .ok () := by
  induction l with
  | nil => rfl
  | cons d rest ih =>
      rcases h d (by simp) with ⟨h1, h2, h3⟩
      simp only [validateDevices, if_neg h1, if_neg h2, if_neg (not_le.mpr h3)]
      exact ih (fun x hx => h x (by simp [hx]))

/-- LoadConfig on an otherwise-valid decoded config: defaults are applied
to `http_listen` and `day_start_hour` and the rest is returned as-is. -/
theorem loadConfig_ok (cfg : AggConfig) (hdb : cfg.databasePath ≠ "")
    (hdev : cfg.devices ≠ [])
    (hvalid : ∀ d ∈ cfg.devices, d.id ≠ "" ∧ d.baseURL ≠ "" ∧ 0 < d.pollIntervalSeconds) :
    loadConfig cfg = .ok ⟨cfg.databasePath,
      if cfg.httpListen = "" then ":8080" else cfg.httpListen,
      if cfg.dayStartHour = 0 then 7 else cfg.dayStartHour,
      cfg.timezone, cfg.devices⟩ := by
  have hval := validateDevices_ok cfg.devices hvalid
  have hdevb : cfg.devices.isEmpty = false := by
    cases h : cfg.devices with
    | nil => exact absurd h hdev
    | cons a l => rfl
  by_cases h1 : cfg.httpListen = "" <;> by_cases h2 : cfg.dayStartHour = 0 <;>
    simp [loadConfig, h1, h2, hdb, hdevb, hval]

/-- Counterexample to C9: `day_start_hour = 0` is inside the claimed range
[0,23], but LoadConfig replaces a decoded 0 with the default 7 (Go cannot
distinguish an explicit 0 from an absent field), so the loaded
DayStartHour differs from the configured one. -/
theorem claim_C9_day_start_hour_cex :
    cfgZero.dayStartHour = 0 ∧
    loadConfig cfgZero = .ok { cfgZero with dayStartHour := 7 } ∧
    ({ cfgZero with dayStartHour := 7 } : AggConfig).dayStartHour ≠ cfgZero.dayStartHour := by
  refine ⟨rfl, rfl, by decide⟩

/-- C9 as amended: on an otherwise-valid configuration, LoadConfig
succeeds; a `day_start_hour` h in [1,23] is kept as-is, while an absent
field or an explicit 0 (indistinguishable after JSON decoding) loads as
the default 7. -/
theorem claim_C9_day_start_hour (cfg : AggConfig) (hdb : cfg.databasePath ≠ "")
    (hdev : cfg.devices ≠ [])
    (hvalid : ∀ d ∈ cfg.devices, d.id ≠ "" ∧ d.baseURL ≠ "" ∧ 0 < d.pollIntervalSeconds) :
    loadConfig cfg = .ok ⟨cfg.databasePath,
      if cfg.httpListen = "" then ":8080" else cfg.httpListen,
      if cfg.dayStartHour = 0 then 7 else cfg.dayStartHour,
      cfg.timezone, cfg.devices⟩ ∧
    (cfg.dayStartHour ≠ 0 →
      (if cfg.dayStartHour = 0 then 7 else cfg.dayStartHour) = cfg.dayStartHour) ∧
    (cfg.dayStartHour = 0 → (if cfg.dayStartHour = 0 then 7 else cfg.dayStartHour) = 7) := by
  exact ⟨loadConfig_ok cfg hdb hdev hvalid, fun h => by simp [h], fun h => by simp [h]⟩

/-- Witness for C9 (amended): a config with hour 5 loads with hour 5 and
the listen default applied. -/
theorem claim_C9_day_start_hour_witness :
    loadConfig cfgFive = .ok ⟨cfgFive.databasePath,
      if cfgFive.httpListen = "" then ":8080" else cfgFive.httpListen,
      if cfgFive.dayStartHour = 0 then 7 else cfgFive.dayStartHour,
      cfgFive.timezone, cfgFive.devices⟩ :=
  (claim_C9_day_start_hour cfgFive (by decide) (by decide) (by decide)).1

/-! ## Usage aggregation lemmas -/

theorem maxTime_eq (a b : Int) : maxTime a b = max a b := by
  rw [maxTime, ite_lt_right_eq_max, max_comm]

theorem minTime_eq (a b : Int) : minTime a b = min a b := by
  rw [minTime, ite_lt_left_eq_min]

theorem aggLookup_addUsage (agg : List (UsageKey × Int)) (k k1 : UsageKey) (v : Int) :
    aggLookup (addUsage agg k v) k1 = aggLookup agg k1 + (if k1 = k then v else 0) := by
  induction agg with
  | nil =>
      by_cases h : k1 = k
      · simp [addUsage, aggLookup, h]
      · have h2 : ¬ k = k1 := fun hh => h hh.symm
        simp [addUsage, aggLookup, h, h2]
  | cons kv rest ih =>
      by_cases h : kv.1 = k
      · simp only [addUsage, if_pos h, aggLookup]
        by_cases h1 : kv.1 = k1
        · have hk1k : k1 = k := h1.symm.trans h
          rw [if_pos h1, if_pos h1, if_pos hk1k]
          omega
        · have hne : ¬ k1 = k := fun hh => h1 (h.symm ▸ hh ▸ rfl)
          rw [if_neg h1, if_neg h1, if_neg hne]
          omega
      · simp only [addUsage, if_neg h, aggLookup, ih]
        omega

theorem codeClosedSecs_eq_spec (start end_ : Int) (s : Session) :
    codeClosedSecs start end_ s = specClosedContribution start end_ s := by
  unfold codeClosedSecs specClosedContribution
  rw [maxTime_eq, minTime_eq]
  by_cases h : max start s.startTime < min end_ s.endTime
  · have hpos : 0 ≤ min end_ s.endTime - max start s.startTime := by omega
    have hdiv : 0 ≤ (min end_ s.endTime - max start s.startTime) / nsPerSec :=
      div_ns_nonneg _ hpos
    simp only [if_pos h, max_eq_right hpos, if_neg (not_lt.mpr hdiv)]
  · have hnp : min end_ s.endTime - max start s.startTime ≤ 0 := by omega
    rw [if_neg h, max_eq_left hnp]
    simp

theorem codeCurrentSecs_eq_spec (start end_ : Int) (c : CurrentSession) :
    codeCurrentSecs start end_ c = specCurrentContribution start end_ c := by
  unfold codeCurrentSecs specCurrentContribution
  simp only [ite_lt_left_eq_min, maxTime_eq, minTime_eq, min_comm c.lastSeenTime end_]
  by_cases h : max start c.startTime < min end_ (min end_ c.lastSeenTime)
  · have hpos : 0 ≤ min end_ (min end_ c.lastSeenTime) - max start c.startTime := by omega
    have hdiv : 0 ≤ (min end_ (min end_ c.lastSeenTime) - max start c.startTime) / nsPerSec :=
      div_ns_nonneg _ hpos
    simp only [if_pos h, max_eq_right hpos, if_neg (not_lt.mpr hdiv)]
  · have hnp : min end_ (min end_ c.lastSeenTime) - max start c.startTime ≤ 0 := by omega
    rw [if_neg h, max_eq_left hnp]
    simp

theorem addClosed_eq (start end_ : Int) (agg : List (UsageKey × Int)) (s : Session) :
    addClosed start end_ agg s =
      if maxTime start s.startTime < minTime end_ s.endTime then
        addUsage agg (keyOfSession s) (codeClosedSecs start end_ s)
      else agg := by
  unfold addClosed codeClosedSecs
  by_cases h : maxTime start s.startTime < minTime end_ s.endTime <;> simp [h]

theorem addCurrent_eq (start end_ : Int) (agg : List (UsageKey × Int)) (c : CurrentSession) :
    addCurrent start end_ agg c =
      if maxTime start c.startTime <
          minTime end_ (if c.lastSeenTime < end_ then c.lastSeenTime else end_) then
        addUsage agg (keyOfCurrent c) (codeCurrentSecs start end_ c)
      else agg := by
  unfold addCurrent codeCurrentSecs
  by_cases h : maxTime start c.startTime <
      minTime end_ (if c.lastSeenTime < end_ then c.lastSeenTime else end_) <;> simp [h]

theorem aggLookup_addClosed (start end_ : Int) (agg : List (UsageKey × Int)) (s : Session)
    (k : UsageKey) :
    aggLookup (addClosed start end_ agg s) k =
      aggLookup agg k + (if keyOfSession s = k then codeClosedSecs start end_ s else 0) := by
  rw [addClosed_eq]
  by_cases h : maxTime start s.startTime < minTime end_ s.endTime
  · rw [if_pos h, aggLookup_addUsage]
    congr 1
    by_cases hk : keyOfSession s = k
    · simp [hk]
    · have hk2 : ¬ k = keyOfSession s := fun hh => hk hh.symm
      simp [hk, hk2]
  · rw [if_neg h]
    have hz : codeClosedSecs start end_ s = 0 := by
      unfold codeClosedSecs
      simp [if_neg h]
    simp [hz]

theorem aggLookup_addCurrent (start end_ : Int) (agg : List (UsageKey × Int))
    (c : CurrentSession) (k : UsageKey) :
    aggLookup (addCurrent start end_ agg c) k =
      aggLookup agg k + (if keyOfCurrent c = k then codeCurrentSecs start end_ c else 0) := by
  rw [addCurrent_eq]
  by_cases h : maxTime start c.startTime <
      minTime end_ (if c.lastSeenTime < end_ then c.lastSeenTime else end_)
  · rw [if_pos h, aggLookup_addUsage]
    congr 1
    by_cases hk : keyOfCurrent c = k
    · simp [hk]
    · have hk2 : ¬ k = keyOfCurrent c := fun hh => hk hh.symm
      simp [hk, hk2]
  · rw [if_neg h]
    have hz : codeCurrentSecs start end_ c = 0 := by
      unfold codeCurrentSecs
      simp [if_neg h]
    simp [hz]

theorem aggLookup_foldl_addClosed (start end_ : Int) (l : List Session)
    (agg : List (UsageKey × Int)) (k : UsageKey) :
    aggLookup (l.foldl (addClosed start end_) agg) k =
      aggLookup agg k +
        (l.map (fun s => if keyOfSession s = k then codeClosedSecs start end_ s else 0)).sum := by
  induction l generalizing agg with
  | nil => simp
  | cons s rest ih =>
      simp only [List.foldl_cons, List.map_cons, List.sum_cons, ih, aggLookup_addClosed]
      omega

theorem aggLookup_foldl_addCurrent (start end_ : Int) (l : List CurrentSession)
    (agg : List (UsageKey × Int)) (k : UsageKey) :
    aggLookup (l.foldl (addCurrent start end_) agg) k =
      aggLookup agg k +
        (l.map (fun c =>
          if keyOfCurrent c = k then codeCurrentSecs start end_ c else 0)).sum := by
  induction l generalizing agg with
  | nil => simp
  | cons c rest ih =>
      simp only [List.foldl_cons, List.map_cons, List.sum_cons, ih, aggLookup_addCurrent]
      omega

theorem lookupUsage_map_agg (agg : List (UsageKey × Int)) (k : UsageKey) :
    lookupUsage (agg.map (fun kv => ⟨kv.1.deviceID, kv.1.appID, kv.1.appName, kv.2⟩)) k =
      aggLookup agg k := by
  induction agg with
  | nil => rfl
  | cons kv rest ih =>
      have hk : keyOfEntry ⟨kv.1.deviceID, kv.1.appID, kv.1.appName, kv.2⟩ = kv.1 := rfl
      simp [lookupUsage, aggLookup, ih, hk]

theorem sum_map_filter (l : List Session) (p : Session → Bool) (f : Session → Int) :
    ((l.filter p).map f).sum = (l.map (fun x => if p x then f x else 0)).sum := by
  induction l with
  | nil => rfl
  | cons a t ih => by_cases h : p a <;> simp [List.filter_cons, h, ih]

theorem sum_map_filter_cur (l : List CurrentSession) (p : CurrentSession → Bool)
    (f : CurrentSession → Int) :
    ((l.filter p).map f).sum = (l.map (fun x => if p x then f x else 0)).sum := by
  induction l with
  | nil => rfl
  | cons a t ih => by_cases h : p a <;> simp [List.filter_cons, h, ih]

theorem specClosed_zero_outside (start end_ : Int) (s : Session)
    (h : s.endTime ≤ start ∨ end_ ≤ s.startTime) :
    specClosedContribution start end_ s = 0 := by
  unfold specClosedContribution
  have hnp : min end_ s.endTime - max start s.startTime ≤ 0 := by omega
  simp [max_eq_left hnp]

/-- Per key, the closed-session loop over the SQL-filtered rows credits
exactly the claim's clipped contributions over the key's rows. -/
theorem closed_sum_eq (st : Store) (start end_ : Int) (dev : Option String) (k : UsageKey) :
    ((st.sessions.filter
        (fun s => start < s.endTime && s.startTime < end_ && devMatch dev s.deviceID)).map
      (fun s => if keyOfSession s = k then codeClosedSecs start end_ s else 0)).sum =
    ((st.sessions.filter (fun s => keyOfSession s = k ∧ devMatch dev s.deviceID)).map
      (specClosedContribution start end_)).sum := by
  rw [sum_map_filter, sum_map_filter]
  apply congrArg
  apply List.map_congr_left
  intro s _
  by_cases hdev : devMatch dev s.deviceID = true
  · by_cases hkey : keyOfSession s = k
    · by_cases hsql : start < s.endTime ∧ s.startTime < end_
      · simp [hdev, hkey, hsql.1, hsql.2, codeClosedSecs_eq_spec]
      · have h0 : specClosedContribution start end_ s = 0 :=
          specClosed_zero_outside _ _ _ (by omega)
        rcases not_and_or.mp hsql with h5 | h5 <;> simp [hdev, hkey, h5, h0]
    · simp [hkey]
  · simp [hdev]

/-- Per key, the current-session loop over the device-filtered rows
credits exactly the claim's clipped open contributions. -/
theorem current_sum_eq (st : Store) (start end_ : Int) (dev : Option String) (k : UsageKey) :
    ((st.currentSessions.filter (fun c => devMatch dev c.deviceID)).map
      (fun c => if keyOfCurrent c = k then codeCurrentSecs start end_ c else 0)).sum =
    ((st.currentSessions.filter (fun c => keyOfCurrent c = k ∧ devMatch dev c.deviceID)).map
      (specCurrentContribution start end_)).sum := by
  rw [sum_map_filter_cur, sum_map_filter_cur]
  apply congrArg
  apply List.map_congr_left
  intro c _
  by_cases hdev : devMatch dev c.deviceID = true
  · by_cases hkey : keyOfCurrent c = k
    · simp [hdev, hkey, codeCurrentSecs_eq_spec]
    · simp [hkey]
  · simp [hdev]

/-! ## Claim C4 -/

/-- C4: for start < end, GetUsageBetween credits, per
(DeviceID, AppID, AppName), the clipped contribution
`max(0, min(end, sEnd) − max(start, sStart))` of every closed session and
the same clipped contribution with effective end `min(end, LastSeenTime)`
of every open session (never crediting past the last heartbeat); for
start ≥ end the result is empty. -/
theorem claim_C4_usage_window (st : Store) (start end_ : Int) (dev : Option String) :
    (start < end_ → ∀ k : UsageKey,
      lookupUsage (getUsageBetween st start end_ dev) k = specUsage st start end_ dev k) ∧
    (end_ ≤ start → getUsageBetween st start end_ dev = []) := by
  constructor
  · intro hlt k
    rw [getUsageBetween, if_neg (not_not_intro hlt), lookupUsage_map_agg,
      aggLookup_foldl_addCurrent, aggLookup_foldl_addClosed,
      closed_sum_eq st start end_ dev k, current_sum_eq st start end_ dev k, specUsage]
    simp [aggLookup]
  · intro h
    rw [getUsageBetween, if_pos (not_lt.mpr h)]

/-- Witness for C4: the S5 window query over two adjacent one-minute
sessions credits 30 seconds to each app. -/
theorem claim_C4_usage_window_witness :
    lookupUsage
        (getUsageBetween
          ⟨[⟨"tv", "A", "AppA", 0, 60 * nsPerSec, 60, "idle"⟩,
            ⟨"tv", "B", "AppB", 60 * nsPerSec, 120 * nsPerSec, 60, "idle"⟩], []⟩
          (30 * nsPerSec) (90 * nsPerSec) none) ⟨"tv", "A", "AppA"⟩ =
      specUsage
        ⟨[⟨"tv", "A", "AppA", 0, 60 * nsPerSec, 60, "idle"⟩,
          ⟨"tv", "B", "AppB", 60 * nsPerSec, 120 * nsPerSec, 60, "idle"⟩], []⟩
        (30 * nsPerSec) (90 * nsPerSec) none ⟨"tv", "A", "AppA"⟩ :=
  (claim_C4_usage_window
    ⟨[⟨"tv", "A", "AppA", 0, 60 * nsPerSec, 60, "idle"⟩,
      ⟨"tv", "B", "AppB", 60 * nsPerSec, 120 * nsPerSec, 60, "idle"⟩], []⟩
    (30 * nsPerSec) (90 * nsPerSec) none).1 (by norm_num [nsPerSec]) ⟨"tv", "A", "AppA"⟩

/-! ## Claim C7 -/

theorem sumSnd_addUsage (agg : List (UsageKey × Int)) (k : UsageKey) (v : Int) :
    ((addUsage agg k v).map (fun kv => kv.2)).sum = (agg.map (fun kv => kv.2)).sum + v := by
  induction agg with
  | nil => simp [addUsage]
  | cons kv rest ih =>
      by_cases h : kv.1 = k
      · simp [addUsage, h]
        omega
      · simp [addUsage, h, ih]
        omega

theorem sumSnd_addClosed (start end_ : Int) (agg : List (UsageKey × Int)) (s : Session) :
    ((addClosed start end_ agg s).map (fun kv => kv.2)).sum =
      (agg.map (fun kv => kv.2)).sum + codeClosedSecs start end_ s := by
  rw [addClosed_eq]
  by_cases h : maxTime start s.startTime < minTime end_ s.endTime
  · rw [if_pos h, sumSnd_addUsage]
  · rw [if_neg h]
    have hz : codeClosedSecs start end_ s = 0 := by
      unfold codeClosedSecs
      simp [if_neg h]
    rw [hz, add_zero]

theorem sumSnd_addCurrent (start end_ : Int) (agg : List (UsageKey × Int))
    (c : CurrentSession) :
    ((addCurrent start end_ agg c).map (fun kv => kv.2)).sum =
      (agg.map (fun kv => kv.2)).sum + codeCurrentSecs start end_ c := by
  rw [addCurrent_eq]
  by_cases h : maxTime start c.startTime <
      minTime end_ (if c.lastSeenTime < end_ then c.lastSeenTime else end_)
  · rw [if_pos h, sumSnd_addUsage]
  · rw [if_neg h]
    have hz : codeCurrentSecs start end_ c = 0 := by
      unfold codeCurrentSecs
      simp [if_neg h]
    rw [hz, add_zero]

theorem sumSnd_foldl_addClosed (start end_ : Int) (l : List Session)
    (agg : List (UsageKey × Int)) :
    ((l.foldl (addClosed start end_) agg).map (fun kv => kv.2)).sum =
      (agg.map (fun kv => kv.2)).sum + (l.map (codeClosedSecs start end_)).sum := by
  induction l generalizing agg with
  | nil => simp
  | cons s rest ih =>
      simp only [List.foldl_cons, List.map_cons, List.sum_cons, ih, sumSnd_addClosed]
      omega

theorem sumSnd_foldl_addCurrent (start end_ : Int) (l : List CurrentSession)
    (agg : List (UsageKey × Int)) :
    ((l.foldl (addCurrent start end_) agg).map (fun kv => kv.2)).sum =
      (agg.map (fun kv => kv.2)).sum + (l.map (codeCurrentSecs start end_)).sum := by
  induction l generalizing agg with
  | nil => simp
  | cons c rest ih =>
      simp only [List.foldl_cons, List.map_cons, List.sum_cons, ih, sumSnd_addCurrent]
      omega

theorem sumTotals_map_agg (agg : List (UsageKey × Int)) :
    ((agg.map (fun kv => ⟨kv.1.deviceID, kv.1.appID, kv.1.appName, kv.2⟩ : _ → UsageEntry)).map
      (fun e => e.totalSeconds)).sum = (agg.map (fun kv => kv.2)).sum := by
  rw [List.map_map]
  rfl

/-- C7: over a window containing every recorded interval, usage sums to
the durations of the closed ledger plus the open sessions' clipped
contributions `floor(LastSeenTime − StartTime)`.  The hypotheses state
that the window covers everything and that the stored rows obey the data
model's invariants (`DurationSeconds = floor(EndTime − StartTime)`,
`StartTime ≤ EndTime`, `StartTime ≤ LastSeenTime`), which every row
written by this store satisfies. -/
theorem claim_C7_roundtrip (st : Store) (start end_ : Int) (hwin : start < end_)
    (hS : ∀ s ∈ st.sessions, start ≤ s.startTime ∧ s.startTime ≤ s.endTime ∧
      s.endTime ≤ end_ ∧ s.durationSecs = (s.endTime - s.startTime) / nsPerSec)
    (hC : ∀ c ∈ st.currentSessions, start ≤ c.startTime ∧ c.startTime ≤ c.lastSeenTime ∧
      c.lastSeenTime ≤ end_) :
    ((getUsageBetween st start end_ none).map (fun e => e.totalSeconds)).sum =
      (st.sessions.map (fun s => s.durationSecs)).sum +
      (st.currentSessions.map (fun c => (c.lastSeenTime - c.startTime) / nsPerSec)).sum := by
  rw [getUsageBetween, if_neg (not_not_intro hwin), sumTotals_map_agg,
    sumSnd_foldl_addCurrent, sumSnd_foldl_addClosed]
  have hcurf : st.currentSessions.filter (fun c => devMatch none c.deviceID) =
      st.currentSessions := by
    simp [devMatch]
  rw [hcurf]
  have hclosed : ((st.sessions.filter
      (fun s => start < s.endTime && s.startTime < end_ && devMatch none s.deviceID)).map
        (codeClosedSecs start end_)).sum = (st.sessions.map (fun s => s.durationSecs)).sum := by
    rw [sum_map_filter]
    apply congrArg
    apply List.map_congr_left
    intro s hs
    rcases hS s hs with ⟨h1, h2, h3, h4⟩
    by_cases hsql : start < s.endTime ∧ s.startTime < end_
    · have hcode : codeClosedSecs start end_ s = s.durationSecs := by
        unfold codeClosedSecs
        rw [maxTime_eq, minTime_eq, max_eq_right h1, min_eq_right h3]
        by_cases h5 : s.startTime < s.endTime
        · have hd : 0 ≤ (s.endTime - s.startTime) / nsPerSec := div_ns_nonneg _ (by omega)
          rw [if_pos h5, if_neg (not_lt.mpr hd), h4]
        · have he : s.endTime = s.startTime := by omega
          rw [if_neg h5, h4, he]
          simp
      simp [hsql.1, hsql.2, devMatch, hcode]
    · have he : s.endTime = s.startTime := by omega
      have hz : s.durationSecs = 0 := by
        rw [h4, he]
        simp
      rcases not_and_or.mp hsql with h5 | h5 <;> simp [devMatch, h5, hz]
  have hcur : (st.currentSessions.map (codeCurrentSecs start end_)).sum =
      (st.currentSessions.map (fun c => (c.lastSeenTime - c.startTime) / nsPerSec)).sum := by
    apply congrArg
    apply List.map_congr_left
    intro c hc
    rcases hC c hc with ⟨h1, h2, h3⟩
    simp only [codeCurrentSecs, ite_lt_left_eq_min, maxTime_eq, minTime_eq]
    rw [max_eq_right h1, min_eq_left h3, min_eq_right h3]
    by_cases h5 : c.startTime < c.lastSeenTime
    · have hd : 0 ≤ (c.lastSeenTime - c.startTime) / nsPerSec := div_ns_nonneg _ (by omega)
      rw [if_pos h5, if_neg (not_lt.mpr hd)]
    · have he : c.lastSeenTime = c.startTime := by omega
      rw [if_neg h5, he]
      simp
  rw [hclosed, hcur]
  simp

/-- Witness for C7: a store with one closed and one open session sums to
`60 + 30` seconds over a covering window. -/
theorem claim_C7_roundtrip_witness :
    ((getUsageBetween
        ⟨[⟨"tv", "A", "AppA", 0, 60 * nsPerSec, 60, "idle"⟩],
          [⟨"tv", "B", "AppB", 60 * nsPerSec, 90 * nsPerSec, "active"⟩]⟩
        0 (100 * nsPerSec) none).map (fun e => e.totalSeconds)).sum =
      (([⟨"tv", "A", "AppA", 0, 60 * nsPerSec, 60, "idle"⟩] : List Session).map
        (fun s => s.durationSecs)).sum +
      (([⟨"tv", "B", "AppB", 60 * nsPerSec, 90 * nsPerSec, "active"⟩] :
          List CurrentSession).map
        (fun c => (c.lastSeenTime - c.startTime) / nsPerSec)).sum :=
  claim_C7_roundtrip
    ⟨[⟨"tv", "A", "AppA", 0, 60 * nsPerSec, 60, "idle"⟩],
      [⟨"tv", "B", "AppB", 60 * nsPerSec, 90 * nsPerSec, "active"⟩]⟩
    0 (100 * nsPerSec) (by norm_num [nsPerSec]) (by decide) (by decide)

/-! ## Claim C3: invariant lemmas -/

theorem stepPoll_ok {st : Store} {p : PollUpdate} {st1 : Store}
    (h : applyPoll st p = .ok st1) : stepPoll st p = st1 := by
  unfold stepPoll
  rw [h]

theorem stepPoll_error {st : Store} {p : PollUpdate} {e : String}
    (h : applyPoll st p = .error e) : stepPoll st p = st := by
  unfold stepPoll
  rw [h]

/-- Two open rows of the same device are the same row, under the
at-most-one-open invariant. -/
theorem rows_unique (st : Store) (hA : atMostOneOpen st) {c c1 : CurrentSession}
    (hc : c ∈ st.currentSessions) (hc1 : c1 ∈ st.currentSessions)
    (h : c.deviceID = c1.deviceID) : c = c1 :=
  List.inj_on_of_nodup_map hA hc hc1 h

/-- A negative `find?` means no row of the device exists. -/
theorem findCurrent_none (st : Store) (d : String) (h : findCurrent st d = none) :
    ∀ c ∈ st.currentSessions, c.deviceID ≠ d := by
  intro c hc
  have := List.find?_eq_none.mp h c hc
  simpa using this

/-- A positive `find?` returns a row of the device. -/
theorem findCurrent_some (st : Store) (d : String) (cur : CurrentSession)
    (h : findCurrent st d = some cur) : cur ∈ st.currentSessions ∧ cur.deviceID = d := by
  refine ⟨List.mem_of_find?_eq_some h, ?_⟩
  have := List.find?_some (p := fun c : CurrentSession => c.deviceID = d) h
  simpa using this

/-- Every row after one runner step is either an untouched old row or
carries the poll's timestamp as its `last_seen_time`. -/
theorem stepPoll_rows (st : Store) (p : PollUpdate) :
    ∀ c1 ∈ (stepPoll st p).currentSessions,
      c1 ∈ st.currentSessions ∨ c1.lastSeenTime = p.timestamp := by
  by_cases hd : p.deviceID = ""
  · rw [stepPoll_error (applyPoll_no_device st p hd)]
    exact fun c1 hc1 => Or.inl hc1
  by_cases hs : p.state = "active"
  · by_cases ha : p.appID = "" ∨ p.appName = ""
    · rw [stepPoll_ok (applyPoll_active_malformed st p hd hs ha)]
      exact fun c1 hc1 => Or.inl hc1
    · push_neg at ha
      cases hfind : findCurrent st p.deviceID with
      | none =>
          rw [stepPoll_ok (applyPoll_active_new st p hd hs ha.1 ha.2 hfind)]
          intro c1 hc1
          rcases List.mem_append.mp hc1 with h | h
          · exact Or.inl h
          · right
            simp only [List.mem_singleton] at h
            subst h
            rfl
      | some cur =>
          by_cases hdiff : cur.appID ≠ p.appID
          · rw [stepPoll_ok (applyPoll_active_change st p cur hd hs ha.1 ha.2 hfind hdiff)]
            intro c1 hc1
            rcases List.mem_append.mp hc1 with h | h
            · exact Or.inl (List.mem_of_mem_filter h)
            · right
              simp only [List.mem_singleton] at h
              subst h
              rfl
          · push_neg at hdiff
            rw [stepPoll_ok (applyPoll_active_same st p cur hd hs ha.1 ha.2 hfind hdiff)]
            intro c1 hc1
            rcases List.mem_map.mp hc1 with ⟨a, haMem, rfl⟩
            by_cases hDev : a.deviceID = p.deviceID
            · right
              simp [hDev]
            · left
              simpa [hDev] using haMem
  by_cases hio : p.state = "idle" ∨ p.state = "offline"
  · cases hfind : findCurrent st p.deviceID with
    | none =>
        rw [stepPoll_ok (applyPoll_close_none st p hd hio hfind)]
        exact fun c1 hc1 => Or.inl hc1
    | some cur =>
        rw [stepPoll_ok (applyPoll_close_some st p cur hd hio hfind)]
        exact fun c1 hc1 => Or.inl (List.mem_of_mem_filter hc1)
  · push_neg at hio
    rw [stepPoll_ok (applyPoll_unknown st p hd hs hio.1 hio.2)]
    exact fun c1 hc1 => Or.inl hc1

/-- One runner step preserves the at-most-one-open invariant. -/
theorem stepPoll_atMostOneOpen (st : Store) (p : PollUpdate) (hA : atMostOneOpen st) :
    atMostOneOpen (stepPoll st p) := by
  by_cases hd : p.deviceID = ""
  · rw [stepPoll_error (applyPoll_no_device st p hd)]
    exact hA
  by_cases hs : p.state = "active"
  · by_cases ha : p.appID = "" ∨ p.appName = ""
    · rw [stepPoll_ok (applyPoll_active_malformed st p hd hs ha)]
      exact hA
    · push_neg at ha
      cases hfind : findCurrent st p.deviceID with
      | none =>
          rw [stepPoll_ok (applyPoll_active_new st p hd hs ha.1 ha.2 hfind)]
          unfold atMostOneOpen at hA ⊢
          rw [List.map_append, List.nodup_append]
          refine ⟨hA, by simp, ?_⟩
          intro x hx hx1
          simp only [newCurrentSession, List.map_cons, List.map_nil, List.mem_singleton] at hx1
          rcases List.mem_map.mp hx with ⟨c, hc, rfl⟩
          exact findCurrent_none st p.deviceID hfind c hc (hx1 ▸ rfl)
      | some cur =>
          have hcurdev := (findCurrent_some st p.deviceID cur hfind).2
          by_cases hdiff : cur.appID ≠ p.appID
          · rw [stepPoll_ok (applyPoll_active_change st p cur hd hs ha.1 ha.2 hfind hdiff)]
            unfold atMostOneOpen at hA ⊢
            rw [List.map_append, List.nodup_append]
            refine ⟨?_, by simp, ?_⟩
            · exact hA.sublist (List.Sublist.map _ (List.filter_sublist st.currentSessions))
            · intro x hx hx1
              simp only [newCurrentSession, List.map_cons, List.map_nil,
                List.mem_singleton] at hx1
              rcases List.mem_map.mp hx with ⟨c, hc, rfl⟩
              have hne : c.deviceID ≠ cur.deviceID := by
                have := List.of_mem_filter hc
                simpa using this
              exact hne (by rw [hx1, hcurdev])
          · push_neg at hdiff
            rw [stepPoll_ok (applyPoll_active_same st p cur hd hs ha.1 ha.2 hfind hdiff)]
            unfold atMostOneOpen at hA ⊢
            rw [List.map_map]
            have : ((fun c : CurrentSession => c.deviceID) ∘ fun c =>
                if c.deviceID = p.deviceID then { c with lastSeenTime := p.timestamp }
                else c) = fun c : CurrentSession => c.deviceID := by
              funext c
              by_cases h : c.deviceID = p.deviceID <;> simp [h]
            rw [this]
            exact hA
  by_cases hio : p.state = "idle" ∨ p.state = "offline"
  · cases hfind : findCurrent st p.deviceID with
    | none =>
        rw [stepPoll_ok (applyPoll_close_none st p hd hio hfind)]
        exact hA
    | some cur =>
        rw [stepPoll_ok (applyPoll_close_some st p cur hd hio hfind)]
        exact hA.sublist (List.Sublist.map _ (List.filter_sublist st.currentSessions))
  · push_neg at hio
    rw [stepPoll_ok (applyPoll_unknown st p hd hs hio.1 hio.2)]
    exact hA

/-- One in-order runner step keeps the device's `last_seen_time` bounded
by the poll timestamp and never decreases it. -/
theorem stepPoll_mono (st : Store) (p : PollUpdate) (hA : atMostOneOpen st)
    (hub : ∀ c ∈ st.currentSessions, c.deviceID = p.deviceID →
      c.lastSeenTime ≤ p.timestamp) :
    (∀ c1 ∈ (stepPoll st p).currentSessions, c1.deviceID = p.deviceID →
      c1.lastSeenTime ≤ p.timestamp) ∧
    (∀ c ∈ st.currentSessions, c.deviceID = p.deviceID →
      ∀ c1 ∈ (stepPoll st p).currentSessions, c1.deviceID = p.deviceID →
        c.lastSeenTime ≤ c1.lastSeenTime) := by
  have identical : stepPoll st p = st →
      (∀ c1 ∈ (stepPoll st p).currentSessions, c1.deviceID = p.deviceID →
        c1.lastSeenTime ≤ p.timestamp) ∧
      (∀ c ∈ st.currentSessions, c.deviceID = p.deviceID →
        ∀ c1 ∈ (stepPoll st p).currentSessions, c1.deviceID = p.deviceID →
          c.lastSeenTime ≤ c1.lastSeenTime) := by
    intro heq
    rw [heq]
    refine ⟨hub, ?_⟩
    intro c hc hcd c1 hc1 hcd1
    rw [rows_unique st hA hc hc1 (hcd.trans hcd1.symm)]
  by_cases hd : p.deviceID = ""
  · exact identical (stepPoll_error (applyPoll_no_device st p hd))
  by_cases hs : p.state = "active"
  · by_cases ha : p.appID = "" ∨ p.appName = ""
    · exact identical (stepPoll_ok (applyPoll_active_malformed st p hd hs ha))
    · push_neg at ha
      cases hfind : findCurrent st p.deviceID with
      | none =>
          rw [stepPoll_ok (applyPoll_active_new st p hd hs ha.1 ha.2 hfind)]
          constructor
          · intro c1 hc1 hcd1
            rcases List.mem_append.mp hc1 with h | h
            · exact hub c1 h hcd1
            · simp only [List.mem_singleton] at h
              subst h
              exact le_refl _
          · intro c hc hcd c1 hc1 hcd1
            exact absurd hcd (findCurrent_none st p.deviceID hfind c hc)
      | some cur =>
          have hcurdev := (findCurrent_some st p.deviceID cur hfind).2
          by_cases hdiff : cur.appID ≠ p.appID
          · rw [stepPoll_ok (applyPoll_active_change st p cur hd hs ha.1 ha.2 hfind hdiff)]
            have hnew : ∀ c1 ∈ (st.currentSessions.filter
                (fun c => c.deviceID ≠ cur.deviceID)) ++ [newCurrentSession p],
                c1.deviceID = p.deviceID → c1.lastSeenTime = p.timestamp := by
              intro c1 hc1 hcd1
              rcases List.mem_append.mp hc1 with h | h
              · have hne : c1.deviceID ≠ cur.deviceID := by
                  have := List.of_mem_filter h
                  simpa using this
                exact absurd (hcd1.trans hcurdev.symm) hne
              · simp only [List.mem_singleton] at h
                subst h
                rfl
            constructor
            · intro c1 hc1 hcd1
              rw [hnew c1 hc1 hcd1]
            · intro c hc hcd c1 hc1 hcd1
              rw [hnew c1 hc1 hcd1]
              exact hub c hc hcd
          · push_neg at hdiff
            rw [stepPoll_ok (applyPoll_active_same st p cur hd hs ha.1 ha.2 hfind hdiff)]
            have hnew : ∀ c1 ∈ st.currentSessions.map (fun c =>
                if c.deviceID = p.deviceID then { c with lastSeenTime := p.timestamp }
                else c), c1.deviceID = p.deviceID → c1.lastSeenTime = p.timestamp := by
              intro c1 hc1 hcd1
              rcases List.mem_map.mp hc1 with ⟨a, _, rfl⟩
              by_cases h : a.deviceID = p.deviceID
              · simp [h]
              · simp only [if_neg h] at hcd1
                exact absurd hcd1 h
            constructor
            · intro c1 hc1 hcd1
              rw [hnew c1 hc1 hcd1]
            · intro c hc hcd c1 hc1 hcd1
              rw [hnew c1 hc1 hcd1]
              exact hub c hc hcd
  by_cases hio : p.state = "idle" ∨ p.state = "offline"
  · cases hfind : findCurrent st p.deviceID with
    | none =>
        exact identical (stepPoll_ok (applyPoll_close_none st p hd hio hfind))
    | some cur =>
        have hcurdev := (findCurrent_some st p.deviceID cur hfind).2
        rw [stepPoll_ok (applyPoll_close_some st p cur hd hio hfind)]
        have hgone : ∀ c1 ∈ st.currentSessions.filter
            (fun c => c.deviceID ≠ cur.deviceID), c1.deviceID ≠ p.deviceID := by
          intro c1 hc1
          have hne : c1.deviceID ≠ cur.deviceID := by
            have := List.of_mem_filter hc1
            simpa using this
          exact fun hh => hne (hh.trans hcurdev.symm)
        constructor
        · intro c1 hc1 hcd1
          exact absurd hcd1 (hgone c1 hc1)
        · intro c hc hcd c1 hc1 hcd1
          exact absurd hcd1 (hgone c1 hc1)
  · push_neg at hio
    exact identical (stepPoll_ok (applyPoll_unknown st p hd hs hio.1 hio.2))

theorem runPolls_append (st : Store) (xs ys : List PollUpdate) :
    runPolls st (xs ++ ys) = runPolls (runPolls st xs) ys :=
  List.foldl_append ..

theorem runPolls_atMostOneOpen (st : Store) (ps : List PollUpdate)
    (hA : atMostOneOpen st) : atMostOneOpen (runPolls st ps) := by
  induction ps generalizing st with
  | nil => exact hA
  | cons p rest ih => exact ih (stepPoll st p) (stepPoll_atMostOneOpen st p hA)

/-- Running polls whose timestamps are all at most `T` keeps every row's
`last_seen_time` for device `d` at most `T`. -/
theorem runPolls_ub (d : String) (T : Int) (ps : List PollUpdate) (st : Store)
    (hts : ∀ p ∈ ps, p.timestamp ≤ T)
    (hinit : ∀ c ∈ st.currentSessions, c.deviceID = d → c.lastSeenTime ≤ T) :
    ∀ c ∈ (runPolls st ps).currentSessions, c.deviceID = d → c.lastSeenTime ≤ T := by
  induction ps generalizing st with
  | nil => exact hinit
  | cons p rest ih =>
      apply ih (stepPoll st p) (fun q hq => hts q (by simp [hq]))
      intro c hc hcd
      rcases stepPoll_rows st p c hc with h | h
      · exact hinit c h hcd
      · rw [h]
        exact hts p (by simp)

/-! ## Claim C3 -/

/-- C3: starting from a store with at most one current row per device,
every ApplyPoll commit preserves that invariant; and along any in-order
sequence of polls for one device (non-decreasing timestamps, all at least
the open rows' heartbeats), the device's `last_seen_time` never decreases
across consecutive commits: the decomposition `pre ++ p :: rest` compares
the store after `pre` with the store after `pre ++ [p]`. -/
theorem claim_C3_invariants :
    (∀ (st : Store) (p : PollUpdate) (st1 : Store),
      atMostOneOpen st → applyPoll st p = .ok st1 → atMostOneOpen st1) ∧
    (∀ (st : Store) (d : String) (pre : List PollUpdate) (p : PollUpdate)
        (rest : List PollUpdate),
      atMostOneOpen st →
      (∀ q ∈ pre ++ p :: rest, q.deviceID = d) →
      (∀ c ∈ st.currentSessions, c.deviceID = d →
        ∀ q ∈ pre ++ p :: rest, c.lastSeenTime ≤ q.timestamp) →
      (pre ++ p :: rest).Pairwise (fun a b => a.timestamp ≤ b.timestamp) →
      ∀ c ∈ (runPolls st pre).currentSessions, c.deviceID = d →
        ∀ c1 ∈ (runPolls st (pre ++ [p])).currentSessions, c1.deviceID = d →
          c.lastSeenTime ≤ c1.lastSeenTime) := by
  constructor
  · intro st p st1 hA hok
    have := stepPoll_atMostOneOpen st p hA
    rwa [stepPoll_ok hok] at this
  · intro st d pre p rest hA hdevs hinit hpair
    have hdev_p : p.deviceID = d := hdevs p (by simp)
    have hA1 : atMostOneOpen (runPolls st pre) := runPolls_atMostOneOpen st pre hA
    have hts : ∀ q ∈ pre, q.timestamp ≤ p.timestamp := by
      intro q hq
      exact (List.pairwise_append.mp hpair).2.2 q hq p (by simp)
    have hub : ∀ c ∈ (runPolls st pre).currentSessions, c.deviceID = p.deviceID →
        c.lastSeenTime ≤ p.timestamp := by
      intro c hc hcd
      refine runPolls_ub d p.timestamp pre st hts ?_ c hc (hcd.trans hdev_p)
      intro c0 hc0 hcd0
      exact hinit c0 hc0 hcd0 p (by simp)
    have hstep := stepPoll_mono (runPolls st pre) p hA1 hub
    intro c hc hcd c1 hc1 hcd1
    rw [runPolls_append] at hc1
    exact hstep.2 c hc (hcd.trans hdev_p.symm) c1 hc1 (hcd1.trans hdev_p.symm)

/-- Witness for C3: one ApplyPoll commit on the singleton Netflix store
keeps at most one open row. -/
theorem claim_C3_invariants_witness :
    atMostOneOpen ⟨[], sameAppUpdate nflxStore nflxPoll⟩ :=
  claim_C3_invariants.1 nflxStore nflxPoll ⟨[], sameAppUpdate nflxStore nflxPoll⟩
    (by unfold atMostOneOpen; decide)
    (applyPoll_active_same nflxStore nflxPoll nflxRow (by decide) rfl (by decide) (by decide)
      (by decide) rfl)

end Screentime
